import Mathlib

/-
Verification of `transpiler/functions.go` from the c2go repository: the
function-declaration and return-statement lowering stage.  The Go source is
embedded shallowly below.  External collaborators (expression lowering, block
lowering, type resolution and casting) are passed in as an `Externals` record
so that theorems quantify over their behaviour; program-wide mutable state
(`*program.Program` plus the package-level function registry) is threaded
explicitly as a `Program` value.
-/

namespace C2goTranspiler

/-- Go binary-operator tokens used by this file of the transpiler:
`token.DEFINE` and `token.ASSIGN` from `go/token`. -/
inductive GoTok where
  | define
  | assign

/-- Shallow embedding of the `go/ast` expression forms this file constructs or
inspects: identifiers (`goast.Ident`), basic literals (`goast.BasicLit`, the
token kind kept as a string such as "INT" or "STRING"), call expressions and
binary expressions. -/
inductive GoExpr where
  | ident (name : String)
  | basicLit (kind : String) (value : String)
  | callExpr (fn : GoExpr) (args : List GoExpr)
  | binaryExpr (x : GoExpr) (op : GoTok) (y : GoExpr)

/-- Shallow embedding of the `go/ast` statement forms this file constructs:
expression statements, return statements and range statements
(`goast.ExprStmt`, `goast.ReturnStmt`, `goast.RangeStmt`).  A range statement
keeps its key and value identifier names, its token, its ranged expression
and its body block. -/
inductive GoStmt where
  | exprStmt (x : GoExpr)
  | returnStmt (results : List GoExpr)
  | rangeStmt (key value : String) (tok : GoTok) (x : GoExpr) (body : List GoStmt)

/-- Embedding of `goast.Field`: a list of identifier names and a type
(the type identifier kept as its string spelling). -/
structure GoField where
  names : List String
  type : String

/-- Embedding of `goast.FieldList`. -/
structure GoFieldList where
  list : List GoField

/-- Embedding of `goast.FuncDecl` as assembled at the end of
`transpileFunctionDecl`: name, parameter field list, result fields and the
body block's statement list. -/
structure GoFuncDecl where
  name : String
  params : GoFieldList
  results : List GoField
  body : List GoStmt

/-- Embedding of `program.FunctionDefinition`: the registered signature of a
C function (name, C return type, positional C argument types, and an optional
substitution naming a Go built-in that replaces the definition; empty string
means no substitution). -/
structure FunctionDefinition where
  name : String
  returnType : String
  argumentTypes : List String
  substitution : String

/-- Embedding of the C-side `ast` child nodes of a `FunctionDecl` that this
file distinguishes: parameter declarations (`ast.ParmVarDecl`, carrying a name
and a C type spelling), compound statements (`ast.CompoundStmt`, the body,
carried as an opaque tag since block lowering is external), and any other
node kind. -/
inductive AstChild where
  | parmVarDecl (name : String) (type : String)
  | compoundStmt (tag : Nat)
  | other (tag : Nat)

/-- Embedding of `ast.FunctionDecl`: the function name, its full prototype
type string (shaped like "int (float)"), and its children. -/
structure FunctionDecl where
  name : String
  type : String
  children : List AstChild

/-- Embedding of `ast.ReturnStmt`: its children are opaque expression nodes
(lowered by the external expression lowerer), carried as tags. -/
structure ReturnStmt where
  children : List Nat

/-- Embedding of the mutable `*program.Program` context together with the
package-level function registry of the `program` package: the active function
(`p.Function`), the registered function definitions, the Go import list, the
collected warning messages, and the output declarations (`p.File.Decls`). -/
structure Program where
  function : Option FunctionDecl
  functionDefinitions : List FunctionDefinition
  goImports : List String
  messages : List String
  fileDecls : List GoFuncDecl

/-- Modelled from the spec: the Function Registry's `lookup(name)` operation
(`program.GetFunctionDefinition`, whose source lies outside this file).  It
returns the registered signature for the name, or absence. -/
def getFunctionDefinition (defs : List FunctionDefinition) (name : String) :
    Option FunctionDefinition :=
  defs.find? fun d => d.name == name

/-- Modelled from the spec: the Function Registry's `register(signature)`
insertion (`program.AddFunctionDefinition`, whose source lies outside this
file).  The caller in this file guards the insertion, so the raw operation
simply records the signature. -/
def addFunctionDefinition (defs : List FunctionDefinition)
    (d : FunctionDefinition) : List FunctionDefinition :=
  defs ++ [d]

/-- Modelled from the spec: import-list management (`p.AddImport`, external to
this file).  Records the import if it is not already required. -/
def addImport (p : Program) (s : String) : Program :=
  if p.goImports.contains s then p
  else { p with goImports := p.goImports ++ [s] }

/-- Modelled from the spec: diagnostic collection (`p.AddMessage`, external to
this file).  An empty message is not recorded; the returned flag reports
whether a message was recorded. -/
def addMessage (p : Program) (m : String) : Program × Bool :=
  if m = "" then (p, false)
  else ({ p with messages := p.messages ++ [m] }, true)

/-- Modelled from the spec: `ast.GenerateWarningMessage(err, n)` (external to
this file) renders no message for a nil error and a non-empty warning text for
a non-nil error. -/
def generateWarningMessage (err : Option String) : String :=
  match err with
  | none => ""
  | some m => "warning: " ++ m

/-- Modelled from the spec: the target-AST construction helper
`goast.NewIdent`. -/
def NewIdent (name : String) : GoExpr :=
  GoExpr.ident name

/-- Modelled from the spec: the target-AST construction helper
`util.NewStringLit`, a string basic literal. -/
def NewStringLit (value : String) : GoExpr :=
  GoExpr.basicLit "STRING" value

/-- Modelled from the spec: the target-AST construction helper
`util.NewCallExpr(name, args...)`, a call of the named identifier. -/
def NewCallExpr (name : String) (args : List GoExpr) : GoExpr :=
  GoExpr.callExpr (NewIdent name) args

/-- Modelled from the spec: the target-AST construction helper
`util.NewExprStmt`. -/
def NewExprStmt (x : GoExpr) : GoStmt :=
  GoStmt.exprStmt x

/-- Modelled from the spec: the target-AST construction helper
`util.NewBinaryExpr`. -/
def NewBinaryExpr (x : GoExpr) (op : GoTok) (y : GoExpr) : GoExpr :=
  GoExpr.binaryExpr x op y

/-- The external collaborators consumed by this file, exactly as the Go code
calls them.  Each receives and returns the shared `Program` context (they
operate on `*program.Program`):
`transpileToBlockStmt` lowers a compound statement to a body block plus
pre/post statements or an error; `transpileToExpr` lowers an expression node
to a Go expression, its inferred C type and pre/post statements, or an error;
`types.ResolveType` maps a C type spelling to a Go type spelling with an
optional error; `types.CastExpr` casts an expression between C types with an
optional error. -/
structure Externals where
  transpileToBlockStmt : Nat → Program →
    Except String (List GoStmt × List GoStmt × List GoStmt) × Program
  transpileToExpr : Nat → Program →
    Except String (GoExpr × String × List GoStmt × List GoStmt) × Program
  resolveType : Program → String → (String × Option String) × Program
  castExpr : Program → GoExpr → String → String → (GoExpr × Option String) × Program

/-- Outcome of `transpileFunctionDecl`: a nil error, a returned (recoverable)
error, or a Go panic (the fatal path in `getFunctionReturnType`, or a nil
pointer dereference). -/
inductive DeclRes where
  | ok
  | err (msg : String)
  | fatal (msg : String)

/-- Outcome of `transpileReturnStmt`: the produced statement with the pre and
post statements hoisted by expression lowering, or a returned error, or a Go
panic. -/
inductive RetRes where
  | ok (stmt : GoStmt) (preStmts : List GoStmt) (postStmts : List GoStmt)
  | err (msg : String)
  | fatal (msg : String)

/-- Lines 23-34 of functions.go: `getFunctionBody` scans all children of a
function declaration and returns the first `CompoundStmt` child, or nil when
the declaration is a prototype with no body. -/
def getFunctionBody (n : FunctionDecl) : Option Nat :=
  n.children.findSome? fun c =>
    match c with
    | AstChild.compoundStmt tag => some tag
    | _ => none

/-- The first element of Go's `strings.Split(f, "(")`: the longest prefix of
the character list not containing "(". -/
def takeBeforeParen : List Char → List Char
  | [] => []
  | c :: cs => if c = '(' then [] else c :: takeBeforeParen cs

/-- Character class trimmed by Go's `strings.TrimSpace` (Unicode white
space in the Latin-1 range). -/
def isGoSpace (c : Char) : Bool :=
  c == ' ' || c == '\t' || c == '\n' || c == '\r' ||
    c.val == 0x0B || c.val == 0x0C || c.val == 0x85 || c.val == 0xA0

/-- Drop leading white space from a character list. -/
def trimLeading : List Char → List Char
  | [] => []
  | c :: cs => if isGoSpace c then trimLeading cs else c :: cs

/-- Go's `strings.TrimSpace`: drop leading and trailing white space. -/
def goTrimSpace (s : String) : String :=
  String.mk ((trimLeading (trimLeading s.data).reverse).reverse)

/-- Lines 276-294 of functions.go: `getFunctionReturnType` takes the text of
the prototype before its first "(" (that is `strings.Split(f, "(")[0]`),
trims surrounding whitespace, and panics when the result is empty.  The
panic is modelled as `none`. -/
def getFunctionReturnType (f : String) : Option String :=
  let returnType := goTrimSpace (String.mk (takeBeforeParen f.data))
  if returnType = "" then none else some returnType

/-- Lines 297-306 of functions.go: `getFunctionArgumentTypes` collects the C
types of the `ParmVarDecl` children in order. -/
def getFunctionArgumentTypes (f : FunctionDecl) : List String :=
  f.children.filterMap fun c =>
    match c with
    | AstChild.parmVarDecl _ ty => some ty
    | _ => none

/-- Loop body of `getFieldList` (lines 218-235 of functions.go): for each
`ParmVarDecl` child, resolve its C type (a resolution failure becomes a
collected warning) and append a field named after the parameter. -/
def getFieldListAux (ext : Externals) : List AstChild → Program →
    List GoField × Program
  | [], p => ([], p)
  | c :: cs, p =>
    match c with
    | AstChild.parmVarDecl name ty =>
      let rr := ext.resolveType p ty
      let p1 := (addMessage rr.2 (generateWarningMessage rr.1.2)).1
      let rest := getFieldListAux ext cs p1
      (GoField.mk [name] rr.1.1 :: rest.1, rest.2)
    | _ => getFieldListAux ext cs p

/-- Lines 218-235 of functions.go: `getFieldList` builds the Go parameter
field list of a C function.  The Go function's error result is always nil, so
it is omitted here. -/
def getFieldList (ext : Externals) (f : FunctionDecl) (p : Program) :
    GoFieldList × Program :=
  let r := getFieldListAux ext f.children p
  (GoFieldList.mk r.1, r.2)

/-- Lines 94-100 of functions.go: the fixed denylist of function names that
are skipped because they are too much trouble. -/
def denylisted (name : String) : Bool :=
  name == "__istype" || name == "__isctype" || name == "__wcwidth" ||
    name == "__sputc" || name == "__inline_signbitf" ||
    name == "__inline_signbitd" || name == "__inline_signbitl"

/-- The test `p.Function != nil && p.Function.Name == "main"` appearing at
lines 127 and 261 of functions.go. -/
def activeIsMain (p : Program) : Bool :=
  match p.function with
  | some fn => fn.name == "main"
  | none => false

/-- The test at lines 262-263 of functions.go: the lowered return expression
is a `*goast.BasicLit` whose `Value` is exactly "0". -/
def isZeroBasicLit (e : GoExpr) : Bool :=
  match e with
  | GoExpr.basicLit _ v => v == "0"
  | _ => false

/-- Line 139 of functions.go: the `__init()` call prepended to main. -/
def initCallStmt : GoStmt :=
  NewExprStmt (NewCallExpr "__init" [])

/-- Lines 151-158 of functions.go: the statement binding the first parameter
of main to `len(os.Args)`. -/
def argcStmt (name : String) : GoStmt :=
  GoStmt.exprStmt (NewBinaryExpr (NewIdent name) GoTok.define
    (NewIdent "len(os.Args)"))

/-- Lines 164-170 of functions.go: the statement initializing the second
parameter of main to an empty `[][]byte`. -/
def argvInitStmt (name : String) : GoStmt :=
  GoStmt.exprStmt (NewBinaryExpr (NewIdent name) GoTok.define
    (NewIdent "[][]byte\x7b\x7d"))

/-- Lines 171-191 of functions.go: the range loop over `os.Args` appending
each argument, as a byte slice, to the second parameter of main. -/
def argvLoopStmt (name : String) : GoStmt :=
  GoStmt.rangeStmt "_" "argvSingle" GoTok.define (NewIdent "os.Args")
    [GoStmt.exprStmt (NewBinaryExpr (NewIdent name) GoTok.assign
      (NewCallExpr "append" [NewIdent name, NewIdent "[]byte(argvSingle)"]))]

/-- Lines 58-67 of functions.go: register the function if and only if no
definition is registered under its name.  Extracting the return type of the
new registration can panic (modelled as `none`). -/
def registrationStep (n : FunctionDecl) (p : Program) : Option Program :=
  match getFunctionDefinition p.functionDefinitions n.name with
  | some _ => some p
  | none =>
    match getFunctionReturnType n.type with
    | none => none
    | some rt =>
      let fd := FunctionDefinition.mk n.name rt (getFunctionArgumentTypes n) ""
      some { p with functionDefinitions := addFunctionDefinition p.functionDefinitions fd }

/-- Lines 69-214 of functions.go, after registration: the substitution check,
body location, body lowering, the denylist check, parameter-list and
return-type construction, the main() rewriting, and assembly of the emitted
`goast.FuncDecl`.  The nil-pointer dereference of `f` at line 118 when the
registry lookup failed is modelled as a fatal outcome. -/
def transpileFunctionDeclAfterReg (ext : Externals) (n : FunctionDecl)
    (p : Program) : DeclRes × Program :=
  let f := getFunctionDefinition p.functionDefinitions n.name
  let hasSubst : Bool :=
    match f with
    | some d => d.substitution != ""
    | none => false
  if hasSubst then (DeclRes.ok, p)
  else
    match getFunctionBody n with
    | none => (DeclRes.ok, p)
    | some fb =>
      let rb := ext.transpileToBlockStmt fb p
      match rb.1 with
      | Except.error e => (DeclRes.err e, rb.2)
      | Except.ok bres =>
        let body := bres.1
        let p2 := rb.2
        if denylisted n.name then (DeclRes.ok, p2)
        else
          let flr := getFieldList ext n p2
          let p3 := flr.2
          match f with
          | none =>
            (DeclRes.fatal "invalid memory address or nil pointer dereference", p3)
          | some fdef =>
            let rr := ext.resolveType p3 fdef.returnType
            let t := rr.1.1
            let p4 := (addMessage rr.2 (generateWarningMessage rr.1.2)).1
            let returnTypes := [GoField.mk [] t]
            if activeIsMain p4 then
              let pr : List GoStmt × Program :=
                match flr.1.list with
                | [] => ([initCallStmt], p4)
                | f0 :: rest0 =>
                  let base := [initCallStmt, argcStmt (f0.names.headD "")]
                  match rest0 with
                  | [] => (base, addImport p4 "os")
                  | f1 :: _ =>
                    (base ++ [argvInitStmt (f1.names.headD ""),
                      argvLoopStmt (f1.names.headD "")], addImport p4 "os")
              let decl := GoFuncDecl.mk n.name (GoFieldList.mk []) [] (pr.1 ++ body)
              (DeclRes.ok, { pr.2 with fileDecls := pr.2.fileDecls ++ [decl] })
            else
              let decl := GoFuncDecl.mk n.name flr.1 returnTypes body
              (DeclRes.ok, { p4 with fileDecls := p4.fileDecls ++ [decl] })

/-- Lines 58-214 of functions.go with the active-function context already
pushed: registration followed by the rest of declaration lowering.  A panic
inside `getFunctionReturnType` during registration is the fatal outcome. -/
def transpileFunctionDeclBody (ext : Externals) (n : FunctionDecl)
    (p : Program) : DeclRes × Program :=
  match registrationStep n p with
  | none =>
    (DeclRes.fatal ("unable to extract the return type from: " ++ n.type), p)
  | some p1 => transpileFunctionDeclAfterReg ext n p1

/-- Lines 45-215 of functions.go: `transpileFunctionDecl`.  The active
function context is set on entry (line 52) and reset to nil by the deferred
function on every exit path, including panics (lines 53-56). -/
def transpileFunctionDecl (ext : Externals) (n : FunctionDecl) (p : Program) :
    DeclRes × Program :=
  let r := transpileFunctionDeclBody ext n { p with function := some n }
  (r.1, { r.2 with function := none })

/-- Lines 237-274 of functions.go: `transpileReturnStmt`.  A bare return is
lowered unconditionally; otherwise the child expression is lowered, cast to
the active function's registered return type (a cast failure becomes a
warning and the result is replaced by the string literal "nil"), and inside
main() a non-zero-literal result becomes an `os.Exit` call with the "os"
entry recorded.  The nil-pointer dereferences of `p.Function` (line 250) and
of the registry lookup (line 252) are modelled as fatal outcomes. -/
def transpileReturnStmt (ext : Externals) (n : ReturnStmt) (p : Program) :
    RetRes × Program :=
  match n.children with
  | [] => (RetRes.ok (GoStmt.returnStmt []) [] [], p)
  | c :: _ =>
    let re := ext.transpileToExpr c p
    match re.1 with
    | Except.error e => (RetRes.err e, re.2)
    | Except.ok er =>
      let e := er.1
      let eType := er.2.1
      let preStmts := er.2.2.1
      let postStmts := er.2.2.2
      let p1 := re.2
      match p1.function with
      | none =>
        (RetRes.fatal "invalid memory address or nil pointer dereference", p1)
      | some fn =>
        match getFunctionDefinition p1.functionDefinitions fn.name with
        | none =>
          (RetRes.fatal "invalid memory address or nil pointer dereference", p1)
        | some f =>
          let rc := ext.castExpr p1 e eType f.returnType
          let am := addMessage rc.2 (generateWarningMessage rc.1.2)
          let p3 := am.1
          let t := if am.2 then NewStringLit "nil" else rc.1.1
          let results := [t]
          if activeIsMain p3 then
            if isZeroBasicLit e then
              (RetRes.ok (GoStmt.returnStmt []) preStmts postStmts, p3)
            else
              (RetRes.ok (GoStmt.exprStmt (NewCallExpr "os.Exit" results))
                preStmts postStmts, addImport p3 "os")
          else
            (RetRes.ok (GoStmt.returnStmt results) preStmts postStmts, p3)

/-- The C-side names and types of the parameter declarations among a list of
children, in order; used to state theorems about the built parameter list. -/
def parmsOf (cs : List AstChild) : List (String × String) :=
  cs.filterMap fun c =>
    match c with
    | AstChild.parmVarDecl a t => some (a, t)
    | _ => none

/-- A driver that lowers a sequence of declarations in order, threading the
program context, as the transpiler's outer loop does. -/
def runDecls (ext : Externals) (ds : List FunctionDecl) (p : Program) :
    Program :=
  ds.foldl (fun q m => (transpileFunctionDecl ext m q).2) p


/-! Helper programs and externals used by witnesses, and auxiliary lemmas. -/

def emptyProgram : Program :=
  { function := none, functionDefinitions := [], goImports := [],
    messages := [], fileDecls := [] }

/-- Externals with constant behaviour that leave the program context
untouched; used to instantiate theorems at concrete inputs. -/
def extConst (blockRes : Except String (List GoStmt × List GoStmt × List GoStmt))
    (exprRes : Except String (GoExpr × String × List GoStmt × List GoStmt))
    (resT : String) (castRes : GoExpr × Option String) : Externals :=
  { transpileToBlockStmt := fun _ q => (blockRes, q)
    transpileToExpr := fun _ q => (exprRes, q)
    resolveType := fun q _ => ((resT, none), q)
    castExpr := fun q _ _ _ => (castRes, q) }

lemma warn_ne (m : String) : generateWarningMessage (some m) ≠ "" := by
  unfold generateWarningMessage
  obtain ⟨l⟩ := m
  intro h
  have h2 := congrArg String.data h
  simp [String.data, String.append] at h2

lemma addImport_mem (p : Program) (s : String) : s ∈ (addImport p s).goImports := by
  unfold addImport
  by_cases h : p.goImports.contains s = true
  · rw [if_pos h]
    exact List.mem_of_elem_eq_true h
  · rw [if_neg h]
    simp

lemma addImport_messages (p : Program) (s : String) :
    (addImport p s).messages = p.messages := by
  unfold addImport; split <;> rfl

lemma addImport_function (p : Program) (s : String) :
    (addImport p s).function = p.function := by
  unfold addImport; split <;> rfl

lemma addImport_fileDecls (p : Program) (s : String) :
    (addImport p s).fileDecls = p.fileDecls := by
  unfold addImport; split <;> rfl

lemma addImport_defs (p : Program) (s : String) :
    (addImport p s).functionDefinitions = p.functionDefinitions := by
  unfold addImport; split <;> rfl

lemma registrationStep_eq {n : FunctionDecl} {q q' : Program}
    (h : registrationStep n q = some q') :
    q'.function = q.function ∧ q'.fileDecls = q.fileDecls ∧
      q'.messages = q.messages ∧ q'.goImports = q.goImports := by
  unfold registrationStep at h
  split at h
  · cases h; exact ⟨rfl, rfl, rfl, rfl⟩
  · split at h
    · cases h
    · cases h; exact ⟨rfl, rfl, rfl, rfl⟩

lemma takeBeforeParen_eq (l : List Char) :
    takeBeforeParen l = l.takeWhile fun c => c != '(' := by
  induction l with
  | nil => rfl
  | cons c cs ih =>
    by_cases h : c = '('
    · simp [takeBeforeParen, List.takeWhile_cons, h]
    · simp [takeBeforeParen, List.takeWhile_cons, h, ih]

lemma getFieldListAux_pure (ext : Externals) (res : String → String)
    (hres : ∀ q s, ext.resolveType q s = ((res s, none), q)) :
    ∀ (cs : List AstChild) (q : Program),
      getFieldListAux ext cs q =
        ((parmsOf cs).map fun a => GoField.mk [a.1] (res a.2), q)
  | [], _ => rfl
  | c :: cs, q => by
    cases c with
    | parmVarDecl a t =>
      simp [getFieldListAux, hres, generateWarningMessage, addMessage, parmsOf,
        List.filterMap_cons, getFieldListAux_pure ext res hres cs]
    | compoundStmt tag =>
      simp [getFieldListAux, parmsOf, List.filterMap_cons,
        getFieldListAux_pure ext res hres cs]
    | other tag =>
      simp [getFieldListAux, parmsOf, List.filterMap_cons,
        getFieldListAux_pure ext res hres cs]

/-! The claims. -/

/-- C7: a return node with no child expression lowers to a bare return with
no results, no pre/post statements and no error, in any function (the active
function, entry point or not, is irrelevant and the program is untouched). -/
theorem transpileReturnStmt_bare (ext : Externals) (n : ReturnStmt) (p : Program)
    (h : n.children = []) :
    transpileReturnStmt ext n p = (RetRes.ok (GoStmt.returnStmt []) [] [], p) := by
  unfold transpileReturnStmt
  rw [h]

theorem transpileReturnStmt_bare_witness :
    transpileReturnStmt (extConst (Except.error "x") (Except.error "x") "int32"
        (GoExpr.ident "y", none)) (ReturnStmt.mk []) emptyProgram =
      (RetRes.ok (GoStmt.returnStmt []) [] [], emptyProgram) :=
  transpileReturnStmt_bare _ _ _ rfl

/-- C5: a declaration whose registered signature carries a non-empty
substitution yields no target definition and no error, and its body is never
lowered: the outcome is the unchanged program (with the context reset) and
does not depend on the externals at all. -/
theorem transpileFunctionDecl_substitution_skip (ext : Externals)
    (n : FunctionDecl) (p : Program) (d : FunctionDefinition)
    (hreg : getFunctionDefinition p.functionDefinitions n.name = some d)
    (hsub : d.substitution ≠ "") :
    transpileFunctionDecl ext n p = (DeclRes.ok, { p with function := none }) := by
  unfold transpileFunctionDecl transpileFunctionDeclBody registrationStep
    transpileFunctionDeclAfterReg
  simp [hreg, hsub]

def substProgram : Program :=
  { function := none,
    functionDefinitions :=
      [FunctionDefinition.mk "printf" "int" ["const char *"] "noarch.Printf"],
    goImports := [], messages := [], fileDecls := [] }

theorem transpileFunctionDecl_substitution_skip_witness :
    transpileFunctionDecl (extConst (Except.error "x") (Except.error "x") "int32"
        (GoExpr.ident "y", none))
      (FunctionDecl.mk "printf" "int (const char *)" [AstChild.compoundStmt 0])
      substProgram =
      (DeclRes.ok, { substProgram with function := none }) :=
  transpileFunctionDecl_substitution_skip _ _ _
    (FunctionDefinition.mk "printf" "int" ["const char *"] "noarch.Printf")
    rfl (by simp)

/-- C8: return-type extraction takes exactly the text before the first
opening parenthesis of the prototype, trimmed of surrounding white space;
when that trimmed text is empty, extraction is a panic that aborts the whole
declaration lowering fatally and leaves the collected messages untouched (it
is not a collected warning). -/
theorem getFunctionReturnType_spec (ext : Externals) (n : FunctionDecl)
    (p : Program)
    (hreg : getFunctionDefinition p.functionDefinitions n.name = none) :
    (∀ rt, getFunctionReturnType n.type = some rt →
        rt = goTrimSpace (String.mk (n.type.data.takeWhile fun c => c != '(')) ∧
          rt ≠ "") ∧
    (getFunctionReturnType n.type = none →
        transpileFunctionDecl ext n p =
          (DeclRes.fatal ("unable to extract the return type from: " ++ n.type),
           { p with function := none })) := by
  constructor
  · intro rt h
    unfold getFunctionReturnType at h
    by_cases hc : goTrimSpace (String.mk (takeBeforeParen n.type.data)) = ""
    · simp [hc] at h
    · rw [if_neg hc] at h
      cases h
      rw [takeBeforeParen_eq] at hc ⊢
      exact ⟨rfl, hc⟩
  · intro h
    unfold transpileFunctionDecl transpileFunctionDeclBody registrationStep
    simp [hreg, h]

theorem getFunctionReturnType_spec_witness :
    ((∀ rt, getFunctionReturnType "  (" = some rt →
        rt = goTrimSpace (String.mk ("  (".data.takeWhile fun c => c != '(')) ∧
          rt ≠ "") ∧
    (getFunctionReturnType "  (" = none →
        transpileFunctionDecl (extConst (Except.error "x") (Except.error "x")
            "int32" (GoExpr.ident "y", none))
          (FunctionDecl.mk "f" "  (" []) emptyProgram =
          (DeclRes.fatal ("unable to extract the return type from: " ++ "  ("),
           { emptyProgram with function := none }))) :=
  getFunctionReturnType_spec _ (FunctionDecl.mk "f" "  (" []) emptyProgram rfl

/-- C1: lowering `return e;` while the active function is the entry point:
when the lowered expression is a basic literal with value "0" the produced
statement is a bare return and the program (in particular its import list) is
unchanged; in every other case the produced statement is `os.Exit` applied to
the cast value as its sole argument and the "os" import is recorded. -/
theorem transpileReturnStmt_main_exit (ext : Externals) (n : ReturnStmt)
    (p : Program) (c : Nat) (cs : List Nat) (e : GoExpr) (eType : String)
    (pre post : List GoStmt) (fn : FunctionDecl) (f : FunctionDefinition)
    (t : GoExpr)
    (hch : n.children = c :: cs)
    (hexpr : ∀ q, ext.transpileToExpr c q = (Except.ok (e, eType, pre, post), q))
    (hfn : p.function = some fn)
    (hmain : fn.name = "main")
    (hreg : getFunctionDefinition p.functionDefinitions fn.name = some f)
    (hcast : ∀ q, ext.castExpr q e eType f.returnType = ((t, none), q)) :
    (isZeroBasicLit e = true →
        transpileReturnStmt ext n p =
          (RetRes.ok (GoStmt.returnStmt []) pre post, p)) ∧
    (isZeroBasicLit e = false →
        transpileReturnStmt ext n p =
          (RetRes.ok (GoStmt.exprStmt (NewCallExpr "os.Exit" [t])) pre post,
           addImport p "os") ∧
        "os" ∈ (addImport p "os").goImports) := by
  unfold transpileReturnStmt
  rw [hch]
  rw [hmain] at hreg
  constructor <;> intro hz <;>
    simp [hexpr p, hfn, hreg, hcast p, generateWarningMessage, addMessage,
      activeIsMain, hmain, hz, addImport_mem]

def extLit0 : Externals :=
  extConst (Except.error "x")
    (Except.ok (GoExpr.basicLit "INT" "0", "int", [], []))
    "int32" (GoExpr.callExpr (GoExpr.ident "int32") [GoExpr.basicLit "INT" "0"], none)

def mainFn : FunctionDecl :=
  FunctionDecl.mk "main" "int ()" [AstChild.compoundStmt 0]

def mainProgram : Program :=
  { function := some mainFn,
    functionDefinitions := [FunctionDefinition.mk "main" "int" [] ""],
    goImports := [], messages := [], fileDecls := [] }

theorem transpileReturnStmt_main_exit_witness :
    transpileReturnStmt extLit0 (ReturnStmt.mk [0]) mainProgram =
      (RetRes.ok (GoStmt.returnStmt []) [] [], mainProgram) :=
  (transpileReturnStmt_main_exit extLit0 (ReturnStmt.mk [0]) mainProgram 0 []
    (GoExpr.basicLit "INT" "0") "int" [] [] mainFn
    (FunctionDefinition.mk "main" "int" [] "")
    (GoExpr.callExpr (GoExpr.ident "int32") [GoExpr.basicLit "INT" "0"])
    rfl (fun _ => rfl) rfl rfl rfl (fun _ => rfl)).1 rfl

/-- C6: when the cast of the lowered return expression to the declared return
type fails, return lowering does not return an error: it records the warning
diagnostic and substitutes the null placeholder literal "nil" as the result
(shown for any active function; the substituted placeholder is the produced
result value whenever the active function is not the entry point). -/
theorem transpileReturnStmt_cast_failure (ext : Externals) (n : ReturnStmt)
    (p : Program) (c : Nat) (cs : List Nat) (e : GoExpr) (eType : String)
    (pre post : List GoStmt) (fn : FunctionDecl) (f : FunctionDefinition)
    (t0 : GoExpr) (msg : String)
    (hch : n.children = c :: cs)
    (hexpr : ∀ q, ext.transpileToExpr c q = (Except.ok (e, eType, pre, post), q))
    (hfn : p.function = some fn)
    (hreg : getFunctionDefinition p.functionDefinitions fn.name = some f)
    (hcast : ∀ q, ext.castExpr q e eType f.returnType = ((t0, some msg), q)) :
    ∃ stmt q, transpileReturnStmt ext n p = (RetRes.ok stmt pre post, q) ∧
      q.messages = p.messages ++ [generateWarningMessage (some msg)] ∧
      (fn.name ≠ "main" → stmt = GoStmt.returnStmt [NewStringLit "nil"]) := by
  unfold transpileReturnStmt
  rw [hch]
  simp only [hexpr p, hfn, hreg, hcast p, addMessage]
  rw [if_neg (warn_ne msg)]
  by_cases hm : fn.name = "main"
  · by_cases hz : isZeroBasicLit e = true
    · refine ⟨GoStmt.returnStmt [],
        { p with function := some fn,
                 messages := p.messages ++ [generateWarningMessage (some msg)] },
        ?_, ?_, ?_⟩
      · simp [activeIsMain, hm, hz]
      · simp
      · intro hh; exact absurd hm hh
    · refine ⟨GoStmt.exprStmt (NewCallExpr "os.Exit" [NewStringLit "nil"]),
        addImport
          { p with function := some fn,
                   messages := p.messages ++ [generateWarningMessage (some msg)] }
          "os",
        ?_, ?_, ?_⟩
      · simp [activeIsMain, hm, hz]
      · rw [addImport_messages]
      · intro hh; exact absurd hm hh
  · refine ⟨GoStmt.returnStmt [NewStringLit "nil"],
      { p with function := some fn,
               messages := p.messages ++ [generateWarningMessage (some msg)] },
      ?_, ?_, ?_⟩
    · simp [activeIsMain, hm]
    · simp
    · intro _; rfl

def fFn : FunctionDecl := FunctionDecl.mk "f" "int ()" [AstChild.compoundStmt 0]

def fProgram : Program :=
  { function := some fFn,
    functionDefinitions := [FunctionDefinition.mk "f" "int" [] ""],
    goImports := [], messages := [], fileDecls := [] }

def extCastFail : Externals :=
  extConst (Except.error "x") (Except.ok (GoExpr.ident "x", "double", [], []))
    "int32" (GoExpr.ident "bad", some "cannot cast")

theorem transpileReturnStmt_cast_failure_witness :
    ∃ stmt q, transpileReturnStmt extCastFail (ReturnStmt.mk [0]) fProgram =
        (RetRes.ok stmt [] [], q) ∧
      q.messages = fProgram.messages ++ [generateWarningMessage (some "cannot cast")] ∧
      (fFn.name ≠ "main" → stmt = GoStmt.returnStmt [NewStringLit "nil"]) :=
  transpileReturnStmt_cast_failure extCastFail (ReturnStmt.mk [0]) fProgram 0 []
    (GoExpr.ident "x") "double" [] [] fFn (FunctionDefinition.mk "f" "int" [] "")
    (GoExpr.ident "bad") "cannot cast" rfl (fun _ => rfl) rfl rfl (fun _ => rfl)

/-- C2: the entry point with at least two declared parameters is emitted with
an empty parameter list, an empty result list, and a body consisting of the
runtime-initialization call, the argument-count binding, the argument-vector
initialization, the argument-vector loop, and then the lowered body
statements unchanged, in that exact order. -/
theorem transpileFunctionDecl_main_rewrite (ext : Externals) (n : FunctionDecl)
    (p p1 : Program) (fdef : FunctionDefinition) (fb : Nat)
    (bodyStmts bpre bpost : List GoStmt) (res : String → String)
    (a0 t0 a1 t1 : String) (rest : List (String × String))
    (hname : n.name = "main")
    (hr : registrationStep n { p with function := some n } = some p1)
    (hf : getFunctionDefinition p1.functionDefinitions n.name = some fdef)
    (hsub : fdef.substitution = "")
    (hbody : getFunctionBody n = some fb)
    (hblock : ∀ q, ext.transpileToBlockStmt fb q =
        (Except.ok (bodyStmts, bpre, bpost), q))
    (hres : ∀ q s, ext.resolveType q s = ((res s, none), q))
    (hparm : parmsOf n.children = (a0, t0) :: (a1, t1) :: rest) :
    transpileFunctionDecl ext n p =
      (DeclRes.ok,
       { addImport p1 "os" with
           fileDecls := p1.fileDecls ++
             [GoFuncDecl.mk "main" (GoFieldList.mk []) []
               ([initCallStmt, argcStmt a0, argvInitStmt a1, argvLoopStmt a1] ++
                 bodyStmts)],
           function := none }) := by
  rw [hname] at hf
  have hfun : p1.function = some n := by rw [(registrationStep_eq hr).1]
  have hfl : getFieldList ext n p1 =
      (GoFieldList.mk ((parmsOf n.children).map fun a => GoField.mk [a.1] (res a.2)), p1) := by
    unfold getFieldList
    rw [getFieldListAux_pure ext res hres]
  rw [hparm] at hfl
  have hden : denylisted "main" = false := rfl
  unfold transpileFunctionDecl transpileFunctionDeclBody
  rw [hr]
  unfold transpileFunctionDeclAfterReg
  rw [hname]
  simp only [hf, hsub, bne_self_eq_false, Bool.false_eq_true, if_false, hbody,
    hblock p1, hden, hfl, List.map_cons, hres p1, generateWarningMessage,
    addMessage, if_pos rfl, activeIsMain, hfun, hname, List.headD_cons]
  simp [hfun, hname, addImport_fileDecls, addImport_function]

def mainDecl2 : FunctionDecl :=
  FunctionDecl.mk "main" "int (int, char **)"
    [AstChild.parmVarDecl "argc" "int", AstChild.parmVarDecl "argv" "char **",
     AstChild.compoundStmt 0]

def mainP1 : Program :=
  { function := some mainDecl2,
    functionDefinitions := [FunctionDefinition.mk "main" "int" ["int", "char **"] ""],
    goImports := [], messages := [], fileDecls := [] }

def extMainW : Externals :=
  extConst (Except.ok ([GoStmt.returnStmt []], [], [])) (Except.error "x")
    "int32" (GoExpr.ident "y", none)

theorem transpileFunctionDecl_main_rewrite_witness :
    transpileFunctionDecl extMainW mainDecl2 emptyProgram =
      (DeclRes.ok,
       { addImport mainP1 "os" with
           fileDecls := mainP1.fileDecls ++
             [GoFuncDecl.mk "main" (GoFieldList.mk []) []
               ([initCallStmt, argcStmt "argc", argvInitStmt "argv",
                 argvLoopStmt "argv"] ++ [GoStmt.returnStmt []])],
           function := none }) :=
  transpileFunctionDecl_main_rewrite extMainW mainDecl2 emptyProgram mainP1
    (FunctionDefinition.mk "main" "int" ["int", "char **"] "") 0
    [GoStmt.returnStmt []] [] [] (fun _ => "int32") "argc" "int" "argv" "char **"
    [] rfl rfl rfl rfl rfl (fun _ => rfl) (fun _ _ => rfl) rfl



/-- C10: under the reachability conditions for emitting a definition, the
emitted definition for a non-entry-point function carries exactly one result
field (holding the resolved return type), even for a void source return
type, while the entry point is emitted with an empty result list. -/
theorem transpileFunctionDecl_result_types (ext : Externals) (n : FunctionDecl)
    (p p1 : Program) (fdef : FunctionDefinition) (fb : Nat)
    (bodyStmts bpre bpost : List GoStmt) (res : String → String)
    (hr : registrationStep n { p with function := some n } = some p1)
    (hf : getFunctionDefinition p1.functionDefinitions n.name = some fdef)
    (hsub : fdef.substitution = "")
    (hbody : getFunctionBody n = some fb)
    (hden : denylisted n.name = false)
    (hblock : ∀ q, ext.transpileToBlockStmt fb q =
        (Except.ok (bodyStmts, bpre, bpost), q))
    (hres : ∀ q s, ext.resolveType q s = ((res s, none), q)) :
    ∃ d q, transpileFunctionDecl ext n p = (DeclRes.ok, q) ∧
      q.fileDecls = p1.fileDecls ++ [d] ∧
      d.results =
        (if n.name = "main" then [] else [GoField.mk [] (res fdef.returnType)]) := by
  have hfun : p1.function = some n := by rw [(registrationStep_eq hr).1]
  have hfl : getFieldList ext n p1 =
      (GoFieldList.mk ((parmsOf n.children).map fun a => GoField.mk [a.1] (res a.2)), p1) := by
    unfold getFieldList
    rw [getFieldListAux_pure ext res hres]
  unfold transpileFunctionDecl transpileFunctionDeclBody
  rw [hr]
  unfold transpileFunctionDeclAfterReg
  simp only [hf, hsub, bne_self_eq_false, Bool.false_eq_true, if_false, hbody,
    hblock p1, hden, hfl, hres p1, generateWarningMessage, addMessage,
    if_pos rfl, activeIsMain, hfun]
  by_cases hm : n.name = "main"
  · cases hl : parmsOf n.children with
    | nil =>
      refine ⟨GoFuncDecl.mk n.name (GoFieldList.mk []) [] ([initCallStmt] ++ bodyStmts), { p1 with fileDecls := p1.fileDecls ++ [GoFuncDecl.mk n.name (GoFieldList.mk []) [] ([initCallStmt] ++ bodyStmts)], function := none }, ?_, ?_, ?_⟩
      · simp [hfun, hm, hl]
      · simp
      · simp [hm]
    | cons pr0 prest =>
      cases prest with
      | nil =>
        refine ⟨GoFuncDecl.mk n.name (GoFieldList.mk []) [] ([initCallStmt, argcStmt pr0.1] ++ bodyStmts), { addImport p1 "os" with fileDecls := p1.fileDecls ++ [GoFuncDecl.mk n.name (GoFieldList.mk []) [] ([initCallStmt, argcStmt pr0.1] ++ bodyStmts)], function := none }, ?_, ?_, ?_⟩
        · simp [hfun, hm, hl, addImport_fileDecls, addImport_function]
        · simp [addImport_fileDecls]
        · simp [hm]
      | cons pr1 prest2 =>
        refine ⟨GoFuncDecl.mk n.name (GoFieldList.mk []) [] ([initCallStmt, argcStmt pr0.1, argvInitStmt pr1.1, argvLoopStmt pr1.1] ++ bodyStmts), { addImport p1 "os" with fileDecls := p1.fileDecls ++ [GoFuncDecl.mk n.name (GoFieldList.mk []) [] ([initCallStmt, argcStmt pr0.1, argvInitStmt pr1.1, argvLoopStmt pr1.1] ++ bodyStmts)], function := none }, ?_, ?_, ?_⟩
        · simp [hfun, hm, hl, addImport_fileDecls, addImport_function]
        · simp [addImport_fileDecls]
        · simp [hm]
  · refine ⟨GoFuncDecl.mk n.name (GoFieldList.mk ((parmsOf n.children).map fun a => GoField.mk [a.1] (res a.2))) [GoField.mk [] (res fdef.returnType)] bodyStmts, { p1 with fileDecls := p1.fileDecls ++ [GoFuncDecl.mk n.name (GoFieldList.mk ((parmsOf n.children).map fun a => GoField.mk [a.1] (res a.2))) [GoField.mk [] (res fdef.returnType)] bodyStmts], function := none }, ?_, ?_, ?_⟩
    · simp [hfun, hm]
    · simp
    · simp [hm]

def voidDecl : FunctionDecl :=
  FunctionDecl.mk "doNothing" "void ()" [AstChild.compoundStmt 0]

def voidP1 : Program :=
  { function := some voidDecl,
    functionDefinitions := [FunctionDefinition.mk "doNothing" "void" [] ""],
    goImports := [], messages := [], fileDecls := [] }

theorem transpileFunctionDecl_result_types_witness :
    ∃ d q, transpileFunctionDecl extMainW voidDecl emptyProgram = (DeclRes.ok, q) ∧
      q.fileDecls = voidP1.fileDecls ++ [d] ∧
      d.results =
        (if voidDecl.name = "main" then []
         else [GoField.mk [] ((fun _ => "int32") voidDecl.type)]) := by
  have h := transpileFunctionDecl_result_types extMainW voidDecl emptyProgram
    voidP1 (FunctionDefinition.mk "doNothing" "void" [] "") 0
    [GoStmt.returnStmt []] [] [] (fun _ => "int32")
    rfl rfl rfl rfl rfl (fun _ => rfl) (fun _ _ => rfl)
  exact h

def extFailBlock : Externals :=
  extConst (Except.error "boom") (Except.error "x") "int32" (GoExpr.ident "y", none)

def denyDecl : FunctionDecl :=
  FunctionDecl.mk "__istype" "int ()" [AstChild.compoundStmt 0]

/-- C3 counterexample: for a denylisted function with a body, declaration
lowering can surface an error, because the body is lowered before the
denylist is consulted: when body lowering fails, `transpileFunctionDecl`
returns that error instead of silently skipping the function. -/
theorem transpileFunctionDecl_denylist_error_counterexample :
    (transpileFunctionDecl extFailBlock denyDecl emptyProgram).1 =
      DeclRes.err "boom" := rfl

/-- C3 (amended): for a denylisted function with a body, provided the body
lowering itself succeeds without touching the program context, declaration
lowering emits no target definition, surfaces no error, and records no
diagnostic (the registry update aside, the program is returned unchanged). -/
theorem transpileFunctionDecl_denylist_silent (ext : Externals)
    (n : FunctionDecl) (p p1 : Program) (fdef : FunctionDefinition) (fb : Nat)
    (bodyStmts bpre bpost : List GoStmt)
    (hr : registrationStep n { p with function := some n } = some p1)
    (hf : getFunctionDefinition p1.functionDefinitions n.name = some fdef)
    (hsub : fdef.substitution = "")
    (hbody : getFunctionBody n = some fb)
    (hden : denylisted n.name = true)
    (hblock : ∀ q, ext.transpileToBlockStmt fb q =
        (Except.ok (bodyStmts, bpre, bpost), q)) :
    transpileFunctionDecl ext n p = (DeclRes.ok, { p1 with function := none }) ∧
    p1.fileDecls = p.fileDecls ∧ p1.messages = p.messages := by
  have hd := registrationStep_eq hr
  refine ⟨?_, hd.2.1, hd.2.2.1⟩
  unfold transpileFunctionDecl transpileFunctionDeclBody
  rw [hr]
  unfold transpileFunctionDeclAfterReg
  simp only [hf, hsub, bne_self_eq_false, Bool.false_eq_true, if_false, hbody,
    hblock p1, hden, if_true]

def denyP1 : Program :=
  { function := some denyDecl,
    functionDefinitions := [FunctionDefinition.mk "__istype" "int" [] ""],
    goImports := [], messages := [], fileDecls := [] }

theorem transpileFunctionDecl_denylist_silent_witness :
    transpileFunctionDecl extMainW denyDecl emptyProgram =
        (DeclRes.ok, { denyP1 with function := none }) ∧
    denyP1.fileDecls = emptyProgram.fileDecls ∧
    denyP1.messages = emptyProgram.messages :=
  transpileFunctionDecl_denylist_silent extMainW denyDecl emptyProgram denyP1
    (FunctionDefinition.mk "__istype" "int" [] "") 0
    [GoStmt.returnStmt []] [] [] rfl rfl rfl rfl rfl (fun _ => rfl)

lemma getFieldListAux_congr (ext ext2 : Externals)
    (h : ext.resolveType = ext2.resolveType) :
    ∀ (cs : List AstChild) (q : Program),
      getFieldListAux ext cs q = getFieldListAux ext2 cs q
  | [], _ => rfl
  | c :: cs, q => by
    cases c with
    | parmVarDecl a t =>
      simp [getFieldListAux, h, getFieldListAux_congr ext ext2 h cs]
    | compoundStmt tag =>
      simp [getFieldListAux, getFieldListAux_congr ext ext2 h cs]
    | other tag =>
      simp [getFieldListAux, getFieldListAux_congr ext ext2 h cs]

/-- C9: the active-function context is cleared on every exit path of
declaration lowering (normal, recoverable error, or fatal), and during the
lowering of a declaration it equals that declaration: the body lowerer is
only ever consulted on a program whose active function is the declaration
being lowered, so two externals that agree on such programs (and share the
type resolver) produce identical outcomes. -/
theorem transpileFunctionDecl_function_context (ext ext2 : Externals)
    (n : FunctionDecl) (p : Program)
    (hb : ∀ b q, q.function = some n →
        ext.transpileToBlockStmt b q = ext2.transpileToBlockStmt b q)
    (hrt : ext.resolveType = ext2.resolveType) :
    transpileFunctionDecl ext n p = transpileFunctionDecl ext2 n p ∧
    (transpileFunctionDecl ext n p).2.function = none := by
  constructor
  · unfold transpileFunctionDecl transpileFunctionDeclBody
    cases hr : registrationStep n { p with function := some n } with
    | none => rfl
    | some p1 =>
      have hfun : p1.function = some n := by rw [(registrationStep_eq hr).1]
      have hstep : transpileFunctionDeclAfterReg ext n p1 =
          transpileFunctionDeclAfterReg ext2 n p1 := by
        have hfl : getFieldList ext n = getFieldList ext2 n := by
          funext q
          unfold getFieldList
          rw [getFieldListAux_congr ext ext2 hrt]
        unfold transpileFunctionDeclAfterReg
        cases hgb : getFunctionBody n with
        | none => rfl
        | some fb =>
          dsimp only
          rw [hb fb p1 hfun, hfl, hrt]
      simp [hstep]
  · simp [transpileFunctionDecl]

theorem transpileFunctionDecl_function_context_witness :
    transpileFunctionDecl extMainW mainDecl2 emptyProgram =
        transpileFunctionDecl extMainW mainDecl2 emptyProgram ∧
    (transpileFunctionDecl extMainW mainDecl2 emptyProgram).2.function = none :=
  transpileFunctionDecl_function_context extMainW extMainW mainDecl2
    emptyProgram (fun _ _ _ => rfl) rfl

lemma addMessage_defs (p : Program) (m : String) :
    ((addMessage p m).1).functionDefinitions = p.functionDefinitions := by
  unfold addMessage; split <;> rfl

/-- The externals used by declaration lowering leave the function registry
untouched (true of the transpiler's block lowerer and type resolver, which
never register functions). -/
def BlockResolvePreserveDefs (ext : Externals) : Prop :=
  (∀ b q, ((ext.transpileToBlockStmt b q).2).functionDefinitions =
      q.functionDefinitions) ∧
  (∀ q s, ((ext.resolveType q s).2).functionDefinitions = q.functionDefinitions)

lemma getFieldListAux_defs (ext : Externals)
    (h2 : ∀ q s, ((ext.resolveType q s).2).functionDefinitions =
        q.functionDefinitions) :
    ∀ (cs : List AstChild) (q : Program),
      ((getFieldListAux ext cs q).2).functionDefinitions = q.functionDefinitions
  | [], _ => rfl
  | c :: cs, q => by
    cases c with
    | parmVarDecl a t =>
      simp [getFieldListAux, getFieldListAux_defs ext h2 cs, addMessage_defs, h2]
    | compoundStmt tag => simp [getFieldListAux, getFieldListAux_defs ext h2 cs]
    | other tag => simp [getFieldListAux, getFieldListAux_defs ext h2 cs]

lemma afterReg_defs (ext : Externals) (hext : BlockResolvePreserveDefs ext)
    (n : FunctionDecl) (q : Program) :
    ((transpileFunctionDeclAfterReg ext n q).2).functionDefinitions =
      q.functionDefinitions := by
  obtain ⟨h1, h2⟩ := hext
  unfold transpileFunctionDeclAfterReg
  dsimp only
  repeat' split
  all_goals
    simp [getFieldList, getFieldListAux_defs ext h2, h1, h2, addMessage_defs,
      addImport_defs]

lemma lookup_append_some {defs : List FunctionDefinition} {name : String}
    {d fd : FunctionDefinition}
    (h : getFunctionDefinition defs name = some d) :
    getFunctionDefinition (defs ++ [fd]) name = some d := by
  unfold getFunctionDefinition at h ⊢
  induction defs with
  | nil => cases h
  | cons a as ih =>
    rw [List.cons_append, List.find?]
    rw [List.find?] at h
    cases ha : a.name == name with
    | true => rw [ha] at h; simpa [ha] using h
    | false => rw [ha] at h; simpa [ha] using ih h

lemma transpileFunctionDecl_defs (ext : Externals)
    (hext : BlockResolvePreserveDefs ext) (m : FunctionDecl) (q : Program) :
    ((transpileFunctionDecl ext m q).2).functionDefinitions =
        q.functionDefinitions ∨
    ∃ fd, ((transpileFunctionDecl ext m q).2).functionDefinitions =
        q.functionDefinitions ++ [fd] := by
  unfold transpileFunctionDecl transpileFunctionDeclBody
  cases hr : registrationStep m { q with function := some m } with
  | none => left; rfl
  | some p1 =>
    have hp1 : p1.functionDefinitions = q.functionDefinitions ∨
        ∃ fd, p1.functionDefinitions = q.functionDefinitions ++ [fd] := by
      unfold registrationStep at hr
      split at hr
      · cases hr; left; rfl
      · split at hr
        · cases hr
        · cases hr; right; exact ⟨_, rfl⟩
    have ha := afterReg_defs ext hext m p1
    rcases hp1 with h | ⟨fd, h⟩
    · left; simpa [h] using ha
    · right; exact ⟨fd, by simpa [h] using ha⟩

/-- C4: registration is first-wins: once a signature is registered under a
name, lowering any further sequence of declarations (whatever their names and
bodies, with externals that do not touch the registry) leaves the looked-up
signature for that name unchanged. -/
theorem functionRegistry_first_wins (ext : Externals)
    (hext : BlockResolvePreserveDefs ext) (p : Program) (name : String)
    (d : FunctionDefinition) (ds : List FunctionDecl)
    (hd : getFunctionDefinition p.functionDefinitions name = some d) :
    getFunctionDefinition (runDecls ext ds p).functionDefinitions name =
      some d := by
  induction ds generalizing p with
  | nil => exact hd
  | cons m ms ih =>
    have step : getFunctionDefinition
        ((transpileFunctionDecl ext m p).2).functionDefinitions name = some d := by
      rcases transpileFunctionDecl_defs ext hext m p with h | ⟨fd, h⟩
      · rw [h]; exact hd
      · rw [h]; exact lookup_append_some hd
    unfold runDecls
    rw [List.foldl_cons]
    exact ih _ step

def firstWinsProgram : Program :=
  { function := none,
    functionDefinitions := [FunctionDefinition.mk "foo" "int" [] ""],
    goImports := [], messages := [], fileDecls := [] }

def fooDecl : FunctionDecl :=
  FunctionDecl.mk "foo" "double ()" [AstChild.compoundStmt 0]

theorem functionRegistry_first_wins_witness :
    getFunctionDefinition
        (runDecls extMainW [fooDecl, fooDecl]
          firstWinsProgram).functionDefinitions "foo" =
      some (FunctionDefinition.mk "foo" "int" [] "") :=
  functionRegistry_first_wins extMainW ⟨fun _ _ => rfl, fun _ _ => rfl⟩
    firstWinsProgram "foo" (FunctionDefinition.mk "foo" "int" [] "")
    [fooDecl, fooDecl] rfl

end C2goTranspiler
